import Mathlib

/-
Verification of the C1 syntax validator's recursive-descent parser
(src/src/parser.rs).  The parser is embedded shallowly: the token stream
owned by the parser is a list of tokens together with the implicit cursor
(the list's head is the current token, consuming a token is taking the
tail), and every grammar-rule procedure of `C1Parser` becomes a function
from the stream state to a parse outcome carrying the remaining stream.
The mutually recursive grammar rules are given as one fuel-indexed
function `run`; fuel exhaustion is a distinguished outcome `fail` that,
as proved below, is never reached from the top-level entry point with
the fuel budget `fuelBound`.
-/

/-- Token categories of the language, mirroring the `C1Token` enum the
parser matches on (the lexer's closed token-kind set). -/
inductive C1Token where
  | Identifier
  | KwIf
  | KwReturn
  | KwPrintf
  | KwBoolean
  | KwFloat
  | KwInt
  | KwVoid
  | ConstInt
  | ConstFloat
  | ConstBoolean
  | LeftParenthesis
  | RightParenthesis
  | LeftBrace
  | RightBrace
  | Semicolon
  | Comma
  | Assign
  | Equal
  | NotEqual
  | LessEqual
  | GreaterEqual
  | Less
  | Greater
  | Plus
  | Minus
  | Or
  | Asterisk
  | Slash
  | And
  deriving DecidableEq, Repr

/-- Modelled from the spec: a Token as provided by the external lexer
collaborator — a lexical category together with the source line number
and the literal text, the latter two needed only for diagnostics (§3). -/
structure Tok where
  kind : C1Token
  line : Nat
  text : String
  deriving DecidableEq, Repr

/-- Modelled from the spec: `current() -> Option<Token>` of the token
stream — the token category at the cursor, or none at end of input;
non-consuming (§6). -/
def current_token (ts : List Tok) : Option C1Token :=
  ts.head?.map (fun t => t.kind)

/-- Modelled from the spec: `peek() -> Option<Token>` — the token one
position past the cursor, or none; non-consuming (§6). -/
def peek_token (ts : List Tok) : Option C1Token :=
  (ts.drop 1).head?.map (fun t => t.kind)

/-- Modelled from the spec: `current_line() -> Option<LineNumber>` —
diagnostic accessor mirroring `current()` (§6). -/
def current_line_number (ts : List Tok) : Option Nat :=
  ts.head?.map (fun t => t.line)

/-- Modelled from the spec: `current_text() -> Option<String>` —
diagnostic accessor mirroring `current()` (§6). -/
def current_text (ts : List Tok) : Option String :=
  ts.head?.map (fun t => t.text)

/-- Modelled from the spec: `advance()` — moves the cursor forward by one
token; no-op at end of input (§6).  The parser calls it `eat`. -/
def eat (ts : List Tok) : List Tok :=
  ts.tail

/-- `current_matches`: whether the given token matches the current token. -/
def current_matches (ts : List Tok) (token : C1Token) : Bool :=
  match current_token ts with
  | none => false
  | some current => current == token

/-- `next_matches`: whether the given token matches the next token. -/
def next_matches (ts : List Tok) (token : C1Token) : Bool :=
  match peek_token ts with
  | none => false
  | some next => next == token

/-- `any_match_current`: whether any of the tokens matches the current token. -/
def any_match_current (ts : List Tok) (token : List C1Token) : Bool :=
  token.any (fun t => current_matches ts t)

/-- `next_can_be_function_call`. -/
def next_can_be_function_call (ts : List Tok) : Bool :=
  current_matches ts C1Token.Identifier && next_matches ts C1Token.LeftParenthesis

/-- `next_can_be_statement`. -/
def next_can_be_statement (ts : List Tok) : Bool :=
  current_matches ts C1Token.KwIf
    || current_matches ts C1Token.KwReturn
    || current_matches ts C1Token.KwPrintf
    || (current_matches ts C1Token.Identifier && next_matches ts C1Token.Assign)
    || (current_matches ts C1Token.Identifier && next_matches ts C1Token.LeftParenthesis)

/-- `next_can_be_block`. -/
def next_can_be_block (ts : List Tok) : Bool :=
  current_matches ts C1Token.LeftBrace || next_can_be_statement ts

/-- `error_message_current`: the Diagnostic Builder.  With no current
token the message is the reason followed by ". Reached EOF"; otherwise it
cites the current token's line number and literal text, unwrapping the
two accessors. -/
def error_message_current (ts : List Tok) (reason : String) : String :=
  match current_token ts with
  | none => reason ++ ". Reached EOF"
  | some _ =>
      reason ++ " at line " ++ toString (current_line_number ts).get!
        ++ ", got '" ++ (current_text ts).get! ++ "' instead."

/-- Outcome of running a grammar-rule procedure: success with the
remaining stream (Rust `Ok(())` plus the advanced stream the parser
owns), a diagnostic (Rust `Err(String)`), or exhaustion of the fuel that
drives the embedding's recursion (no Rust counterpart; proved
unreachable from `parse`). -/
inductive PRes where
  | ok (rest : List Tok)
  | err (msg : String)
  | fail
  deriving DecidableEq, Repr

/-- The `?` operator on `ParseResult`: propagate a failure, continue on
success with the stream state the sub-rule left behind. -/
def pbind (r : PRes) (k : List Tok → PRes) : PRes :=
  match r with
  | PRes.ok rest => k rest
  | e => e

/-- `check_and_eat_token`: if the current token equals the given token,
consume it, otherwise return the diagnostic for the given reason. -/
def check_and_eat_token (ts : List Tok) (token : C1Token) (msg : String) : PRes :=
  if current_matches ts token then PRes.ok (eat ts)
  else PRes.err (error_message_current ts msg)

/-- `return_type ::= <KW_BOOLEAN> | <KW_FLOAT> | <KW_INT> | <KW_VOID>`. -/
def return_type (ts : List Tok) : PRes :=
  if any_match_current ts
      [C1Token.KwBoolean, C1Token.KwFloat, C1Token.KwInt, C1Token.KwVoid] then
    PRes.ok (eat ts)
  else
    PRes.err (error_message_current ts "Expected type keyword")

/-- `functioncall ::= <ID> "(" ")"`. -/
def function_call (ts : List Tok) : PRes :=
  pbind (check_and_eat_token ts C1Token.Identifier "Expected function name") fun r1 =>
  pbind (check_and_eat_token r1 C1Token.LeftParenthesis "Expected '('") fun r2 =>
  check_and_eat_token r2 C1Token.RightParenthesis "Expected ')'"

/-- Names for the mutually recursive grammar-rule procedures of
`C1Parser`.  `simpexpr_ops` and `term_ops` are the `while` loops inside
`simpexpr` and `term` (additive and multiplicative operator chains). -/
inductive Rule where
  | program
  | function_definition
  | statement_list
  | block
  | statement
  | if_statement
  | return_statement
  | printf
  | stat_assignment
  | assignment
  | expr
  | simpexpr
  | simpexpr_ops
  | term
  | term_ops
  | factor
  deriving DecidableEq, Repr

/-- The Grammar Engine: each rule translated clause for clause from
`C1Parser`'s procedures, with the mutual recursion driven by fuel. -/
def run : Nat → Rule → List Tok → PRes
  | 0, _, _ => PRes.fail
  | f+1, Rule.program, ts =>
      -- while let Some(_) = current_token { function_definition()? }
      -- then: Some -> Err("Expected EOF"), None -> Ok(())
      (match current_token ts with
       | some _ =>
           pbind (run f Rule.function_definition ts) fun rest =>
           run f Rule.program rest
       | none =>
           match current_token ts with
           | some _ => PRes.err (error_message_current ts "Expected EOF")
           | none => PRes.ok ts)
  | f+1, Rule.function_definition, ts =>
      pbind (return_type ts) fun r1 =>
      pbind (check_and_eat_token r1 C1Token.Identifier "Expected function name") fun r2 =>
      pbind (check_and_eat_token r2 C1Token.LeftParenthesis "Expected '('") fun r3 =>
      pbind (check_and_eat_token r3 C1Token.RightParenthesis "Expected ')'") fun r4 =>
      pbind (check_and_eat_token r4 C1Token.LeftBrace "Expected '\x7b'") fun r5 =>
      pbind (run f Rule.statement_list r5) fun r6 =>
      check_and_eat_token r6 C1Token.RightBrace "Expected '\x7d'"
  | f+1, Rule.statement_list, ts =>
      -- while next_can_be_block { block()? }
      if next_can_be_block ts then
        pbind (run f Rule.block ts) fun rest =>
        run f Rule.statement_list rest
      else PRes.ok ts
  | f+1, Rule.block, ts =>
      if current_matches ts C1Token.LeftBrace then
        pbind (run f Rule.statement_list (eat ts)) fun r =>
        check_and_eat_token r C1Token.RightBrace "Expected '\x7d'"
      else
        run f Rule.statement ts
  | f+1, Rule.statement, ts =>
      if current_matches ts C1Token.KwIf then
        run f Rule.if_statement ts
      else if current_matches ts C1Token.KwReturn then
        pbind (run f Rule.return_statement ts) fun r =>
        check_and_eat_token r C1Token.Semicolon "Expected ';' after return statement"
      else if current_matches ts C1Token.KwPrintf then
        pbind (run f Rule.printf ts) fun r =>
        check_and_eat_token r C1Token.Semicolon "Expected ';' after printf statement"
      else if current_matches ts C1Token.Identifier && next_matches ts C1Token.Assign then
        pbind (run f Rule.stat_assignment ts) fun r =>
        check_and_eat_token r C1Token.Semicolon "Expected ';' after assignment"
      else if current_matches ts C1Token.Identifier
          && next_matches ts C1Token.LeftParenthesis then
        pbind (function_call ts) fun r =>
        check_and_eat_token r C1Token.Semicolon "Expected ';' after function call"
      else
        PRes.err (error_message_current ts "Expected statement")
  | f+1, Rule.if_statement, ts =>
      pbind (check_and_eat_token ts C1Token.KwIf "Expected 'if' keyword") fun r1 =>
      pbind (check_and_eat_token r1 C1Token.LeftParenthesis "Expected '('") fun r2 =>
      pbind (run f Rule.assignment r2) fun r3 =>
      pbind (check_and_eat_token r3 C1Token.RightParenthesis "Expected ')'") fun r4 =>
      run f Rule.block r4
  | f+1, Rule.return_statement, ts =>
      pbind (check_and_eat_token ts C1Token.KwReturn "Expected 'return' keyword") fun r1 =>
      (match current_token r1 with
       | some _ =>
           if !(current_matches r1 C1Token.Semicolon) then
             run f Rule.assignment r1
           else PRes.ok r1
       | none => PRes.ok r1)
  | f+1, Rule.printf, ts =>
      pbind (check_and_eat_token ts C1Token.KwPrintf "Expected 'printf' keyword") fun r1 =>
      pbind (check_and_eat_token r1 C1Token.LeftParenthesis "Expected '('") fun r2 =>
      pbind (run f Rule.assignment r2) fun r3 =>
      check_and_eat_token r3 C1Token.RightParenthesis "Expected ')'"
  | f+1, Rule.stat_assignment, ts =>
      pbind (check_and_eat_token ts C1Token.Identifier "Expected identifier") fun r1 =>
      pbind (check_and_eat_token r1 C1Token.Assign "Expected '='") fun r2 =>
      run f Rule.assignment r2
  | f+1, Rule.assignment, ts =>
      if current_matches ts C1Token.Identifier && next_matches ts C1Token.Assign then
        pbind (check_and_eat_token ts C1Token.Identifier "Expected identifier") fun r1 =>
        pbind (check_and_eat_token r1 C1Token.Assign "Expected '='") fun r2 =>
        run f Rule.assignment r2
      else
        run f Rule.expr ts
  | f+1, Rule.expr, ts =>
      pbind (run f Rule.simpexpr ts) fun r1 =>
      if any_match_current r1
          [C1Token.Equal, C1Token.NotEqual, C1Token.LessEqual,
           C1Token.GreaterEqual, C1Token.Less, C1Token.Greater] then
        run f Rule.simpexpr (eat r1)
      else PRes.ok r1
  | f+1, Rule.simpexpr, ts =>
      pbind (run f Rule.term (if current_matches ts C1Token.Minus then eat ts else ts))
        fun r1 =>
      run f Rule.simpexpr_ops r1
  | f+1, Rule.simpexpr_ops, ts =>
      -- while any_match_current [+, -, ||] { eat; term()? }
      if any_match_current ts [C1Token.Plus, C1Token.Minus, C1Token.Or] then
        pbind (run f Rule.term (eat ts)) fun rest =>
        run f Rule.simpexpr_ops rest
      else PRes.ok ts
  | f+1, Rule.term, ts =>
      pbind (run f Rule.factor ts) fun r1 =>
      run f Rule.term_ops r1
  | f+1, Rule.term_ops, ts =>
      -- while any_match_current [*, /, &&] { eat; factor()? }
      if any_match_current ts [C1Token.Asterisk, C1Token.Slash, C1Token.And] then
        pbind (run f Rule.factor (eat ts)) fun rest =>
        run f Rule.term_ops rest
      else PRes.ok ts
  | f+1, Rule.factor, ts =>
      if current_matches ts C1Token.ConstInt
          || current_matches ts C1Token.ConstFloat
          || current_matches ts C1Token.ConstBoolean then
        PRes.ok (eat ts)
      else if next_can_be_function_call ts then
        function_call ts
      else if current_matches ts C1Token.Identifier then
        PRes.ok (eat ts)
      else if current_matches ts C1Token.LeftParenthesis then
        pbind (run f Rule.assignment (eat ts)) fun r =>
        check_and_eat_token r C1Token.RightParenthesis "Expected ')'"
      else
        PRes.err (error_message_current ts "Expected factor")

/-- Fuel budget sufficient for any parse of `ts` (proved below): each
consumed token pays for a bounded burst of rule entries. -/
def fuelBound (ts : List Tok) : Nat :=
  10 * ts.length + 14

/-- `parse`: the top-level entry point — build a fresh parser over the
token stream of the input and run `program`.  (The tokenization of the
source text is the out-of-scope lexer collaborator; the entry point is
modelled at its token-stream interface.) -/
def parse (ts : List Tok) : PRes :=
  run (fuelBound ts) Rule.program ts

/-- A token-stream read returning its (unchanged) stream: the
state-passing rendering of the non-mutating `current_token` accessor,
used to state cursor-preservation of the Lookahead Oracle. -/
def current_tokenS (ts : List Tok) : Option C1Token × List Tok :=
  (current_token ts, ts)

/-- State-passing rendering of the `peek_token` accessor. -/
def peek_tokenS (ts : List Tok) : Option C1Token × List Tok :=
  (peek_token ts, ts)

/-- State-passing rendering of the `current_line_number` accessor. -/
def current_line_numberS (ts : List Tok) : Option Nat × List Tok :=
  (current_line_number ts, ts)

/-- State-passing rendering of the `current_text` accessor. -/
def current_textS (ts : List Tok) : Option String × List Tok :=
  (current_text ts, ts)

/-- `current_matches` with the stream state threaded through each
token-stream call, mirroring the order of reads in the source. -/
def current_matchesS (ts : List Tok) (token : C1Token) : Bool × List Tok :=
  let p := current_tokenS ts
  (match p.1 with
   | none => false
   | some current => current == token, p.2)

/-- `next_matches` with the stream state threaded through. -/
def next_matchesS (ts : List Tok) (token : C1Token) : Bool × List Tok :=
  let p := peek_tokenS ts
  (match p.1 with
   | none => false
   | some next => next == token, p.2)

/-- `any_match_current` with the stream state threaded through the
short-circuiting `iter().any` traversal. -/
def any_match_currentS : List Tok → List C1Token → Bool × List Tok
  | ts, [] => (false, ts)
  | ts, t :: rest =>
      let p := current_matchesS ts t
      if p.1 then (true, p.2) else any_match_currentS p.2 rest

/-- `next_can_be_function_call` with the stream state threaded through
the short-circuiting `&&`. -/
def next_can_be_function_callS (ts : List Tok) : Bool × List Tok :=
  let p := current_matchesS ts C1Token.Identifier
  if p.1 then next_matchesS p.2 C1Token.LeftParenthesis else (false, p.2)

/-- `next_can_be_statement` with the stream state threaded through the
short-circuiting `||`/`&&` chain, in the source's evaluation order. -/
def next_can_be_statementS (ts : List Tok) : Bool × List Tok :=
  let p1 := current_matchesS ts C1Token.KwIf
  if p1.1 then (true, p1.2) else
  let p2 := current_matchesS p1.2 C1Token.KwReturn
  if p2.1 then (true, p2.2) else
  let p3 := current_matchesS p2.2 C1Token.KwPrintf
  if p3.1 then (true, p3.2) else
  let p4 := current_matchesS p3.2 C1Token.Identifier
  let p5 := if p4.1 then next_matchesS p4.2 C1Token.Assign else (false, p4.2)
  if p5.1 then (true, p5.2) else
  let p6 := current_matchesS p5.2 C1Token.Identifier
  if p6.1 then next_matchesS p6.2 C1Token.LeftParenthesis else (false, p6.2)

/-- `next_can_be_block` with the stream state threaded through. -/
def next_can_be_blockS (ts : List Tok) : Bool × List Tok :=
  let p := current_matchesS ts C1Token.LeftBrace
  if p.1 then (true, p.2) else next_can_be_statementS p.2

/-- `error_message_current` with the stream state threaded through its
three accessor calls, used to state that building a diagnostic never
consumes the current token. -/
def error_message_currentS (ts : List Tok) (reason : String) : String × List Tok :=
  let p := current_tokenS ts
  match p.1 with
  | none => (reason ++ ". Reached EOF", p.2)
  | some _ =>
      let pl := current_line_numberS p.2
      let pt := current_textS pl.2
      (reason ++ " at line " ++ toString pl.1.get! ++ ", got '" ++ pt.1.get!
        ++ "' instead.", pt.2)

/-- Whether the first character sequence is an initial segment of the
second (statement vocabulary for claims about diagnostic wording). -/
def leadsWith : List Char → List Char → Bool
  | [], _ => true
  | _ :: _, [] => false
  | a :: as, b :: bs => a == b && leadsWith as bs

/-- Whether the first character sequence occurs contiguously anywhere in
the second (statement vocabulary for claims about diagnostic wording). -/
def containsSeq (pat : List Char) : List Char → Bool
  | [] => leadsWith pat []
  | b :: bs => leadsWith pat (b :: bs) || containsSeq pat bs

/-- Modelled from the spec: the external lexer's token sequence for the
source text `int x = 0;` (type keyword, identifier, `=`, integer
literal, `;`, all on line 1). -/
def tokens_int_x_eq_0 : List Tok :=
  [⟨C1Token.KwInt, 1, "int"⟩, ⟨C1Token.Identifier, 1, "x"⟩,
   ⟨C1Token.Assign, 1, "="⟩, ⟨C1Token.ConstInt, 1, "0"⟩,
   ⟨C1Token.Semicolon, 1, ";"⟩]

/-- Modelled from the spec: the external lexer's token sequence for a
source text consisting of the lone type keyword `bool`. -/
def lone_bool_token : List Tok :=
  [⟨C1Token.KwBoolean, 1, "bool"⟩]

/-- Modelled from the spec: the external lexer's token sequence for the
statement-list source text `x = 1;`. -/
def tokens_x_assign_1 : List Tok :=
  [⟨C1Token.Identifier, 1, "x"⟩, ⟨C1Token.Assign, 1, "="⟩,
   ⟨C1Token.ConstInt, 1, "1"⟩, ⟨C1Token.Semicolon, 1, ";"⟩]

/-- Modelled from the spec: the external lexer's token sequence for the
statement-list source text `x();`. -/
def tokens_x_call : List Tok :=
  [⟨C1Token.Identifier, 1, "x"⟩, ⟨C1Token.LeftParenthesis, 1, "("⟩,
   ⟨C1Token.RightParenthesis, 1, ")"⟩, ⟨C1Token.Semicolon, 1, ";"⟩]

/-- Modelled from the spec: the external lexer's token sequence for the
malformed statement-list source text `x ( ;`. -/
def tokens_x_call_bad : List Tok :=
  [⟨C1Token.Identifier, 1, "x"⟩, ⟨C1Token.LeftParenthesis, 1, "("⟩,
   ⟨C1Token.Semicolon, 1, ";"⟩]

theorem pbind_ok {r : PRes} {k : List Tok → PRes} {rest : List Tok}
    (h : pbind r k = PRes.ok rest) :
    ∃ m, r = PRes.ok m ∧ k m = PRes.ok rest := by
  cases r with
  | ok m => exact ⟨m, rfl, h⟩
  | err msg => simp [pbind] at h
  | fail => simp [pbind] at h

theorem pbind_fail {r : PRes} {k : List Tok → PRes}
    (h : pbind r k = PRes.fail) :
    r = PRes.fail ∨ ∃ m, r = PRes.ok m ∧ k m = PRes.fail := by
  cases r with
  | ok m => exact Or.inr ⟨m, rfl, h⟩
  | err msg => simp [pbind] at h
  | fail => exact Or.inl rfl

theorem current_matches_nonempty {ts : List Tok} {t : C1Token}
    (h : current_matches ts t = true) : ts ≠ [] := by
  intro hnil
  subst hnil
  simp [current_matches, current_token] at h

theorem any_match_current_nonempty {ts : List Tok} {l : List C1Token}
    (h : any_match_current ts l = true) : ts ≠ [] := by
  rcases List.any_eq_true.mp h with ⟨t, _, ht⟩
  exact current_matches_nonempty ht

theorem check_and_eat_token_ok {ts rest : List Tok} {t : C1Token} {msg : String}
    (h : check_and_eat_token ts t msg = PRes.ok rest) :
    rest.length < ts.length := by
  unfold check_and_eat_token at h
  split at h
  · rename_i hm
    cases h
    rcases List.exists_cons_of_ne_nil (current_matches_nonempty hm) with ⟨a, tl, rfl⟩
    simp [eat]
  · cases h

theorem check_and_eat_token_ne_fail (ts : List Tok) (t : C1Token) (msg : String) :
    check_and_eat_token ts t msg ≠ PRes.fail := by
  unfold check_and_eat_token
  split <;> simp

theorem return_type_ok {ts rest : List Tok}
    (h : return_type ts = PRes.ok rest) : rest.length < ts.length := by
  unfold return_type at h
  split at h
  · rename_i hm
    cases h
    rcases List.exists_cons_of_ne_nil (any_match_current_nonempty hm) with ⟨a, tl, rfl⟩
    simp [eat]
  · cases h

theorem return_type_ne_fail (ts : List Tok) : return_type ts ≠ PRes.fail := by
  unfold return_type
  split <;> simp

theorem function_call_ok {ts rest : List Tok}
    (h : function_call ts = PRes.ok rest) : rest.length < ts.length := by
  unfold function_call at h
  rcases pbind_ok h with ⟨r1, h1, h⟩
  rcases pbind_ok h with ⟨r2, h2, h3⟩
  have l1 := check_and_eat_token_ok h1
  have l2 := check_and_eat_token_ok h2
  have l3 := check_and_eat_token_ok h3
  omega

theorem function_call_ne_fail (ts : List Tok) : function_call ts ≠ PRes.fail := by
  unfold function_call
  intro h
  rcases pbind_fail h with h' | ⟨m, hm, h'⟩
  · exact check_and_eat_token_ne_fail _ _ _ h'
  rcases pbind_fail h' with h'' | ⟨m2, hm2, h''⟩
  · exact check_and_eat_token_ne_fail _ _ _ h''
  · exact check_and_eat_token_ne_fail _ _ _ h''

theorem eat_length_le (ts : List Tok) : (eat ts).length ≤ ts.length := by
  simp [eat]

theorem run_ok_length : ∀ (f : Nat) (r : Rule) (ts rest : List Tok),
    run f r ts = PRes.ok rest → rest.length ≤ ts.length := by
  intro f
  induction f with
  | zero =>
    intro r ts rest h
    simp [run] at h
  | succ f ih =>
    intro r ts rest h
    cases r
    case program =>
      simp only [run] at h
      cases hc : current_token ts with
      | none =>
        simp only [hc] at h
        injection h with h
        subst h
        exact Nat.le_refl _
      | some tk =>
        simp only [hc] at h
        rcases pbind_ok h with ⟨m, hm, hrest⟩
        exact le_trans (ih Rule.program m rest hrest) (ih Rule.function_definition ts m hm)
    case function_definition =>
      simp only [run] at h
      rcases pbind_ok h with ⟨r1, h1, h⟩
      rcases pbind_ok h with ⟨r2, h2, h⟩
      rcases pbind_ok h with ⟨r3, h3, h⟩
      rcases pbind_ok h with ⟨r4, h4, h⟩
      rcases pbind_ok h with ⟨r5, h5, h⟩
      rcases pbind_ok h with ⟨r6, h6, h⟩
      have l1 := return_type_ok h1
      have l2 := check_and_eat_token_ok h2
      have l3 := check_and_eat_token_ok h3
      have l4 := check_and_eat_token_ok h4
      have l5 := check_and_eat_token_ok h5
      have l6 := ih Rule.statement_list r5 r6 h6
      have l7 := check_and_eat_token_ok h
      omega
    case statement_list =>
      simp only [run] at h
      split at h
      · rcases pbind_ok h with ⟨m, hm, hrest⟩
        exact le_trans (ih Rule.statement_list m rest hrest) (ih Rule.block ts m hm)
      · injection h with h
        subst h
        exact Nat.le_refl _
    case block =>
      simp only [run] at h
      split at h
      · rcases pbind_ok h with ⟨m, hm, hrest⟩
        have l1 := ih Rule.statement_list (eat ts) m hm
        have l2 := check_and_eat_token_ok hrest
        have l3 := eat_length_le ts
        omega
      · exact ih Rule.statement ts rest h
    case statement =>
      simp only [run] at h
      split at h
      · exact ih Rule.if_statement ts rest h
      · split at h
        · rcases pbind_ok h with ⟨m, hm, h2⟩
          have l1 := ih Rule.return_statement ts m hm
          have l2 := check_and_eat_token_ok h2
          omega
        · split at h
          · rcases pbind_ok h with ⟨m, hm, h2⟩
            have l1 := ih Rule.printf ts m hm
            have l2 := check_and_eat_token_ok h2
            omega
          · split at h
            · rcases pbind_ok h with ⟨m, hm, h2⟩
              have l1 := ih Rule.stat_assignment ts m hm
              have l2 := check_and_eat_token_ok h2
              omega
            · split at h
              · rcases pbind_ok h with ⟨m, hm, h2⟩
                have l1 := function_call_ok hm
                have l2 := check_and_eat_token_ok h2
                omega
              · simp at h
    case if_statement =>
      simp only [run] at h
      rcases pbind_ok h with ⟨r1, h1, h⟩
      rcases pbind_ok h with ⟨r2, h2, h⟩
      rcases pbind_ok h with ⟨r3, h3, h⟩
      rcases pbind_ok h with ⟨r4, h4, h⟩
      have l1 := check_and_eat_token_ok h1
      have l2 := check_and_eat_token_ok h2
      have l3 := ih Rule.assignment r2 r3 h3
      have l4 := check_and_eat_token_ok h4
      have l5 := ih Rule.block r4 rest h
      omega
    case return_statement =>
      simp only [run] at h
      rcases pbind_ok h with ⟨r1, h1, h⟩
      have l1 := check_and_eat_token_ok h1
      cases hc : current_token r1 with
      | none =>
        simp only [hc] at h
        injection h with h
        subst h
        omega
      | some tk =>
        simp only [hc] at h
        split at h
        · have l2 := ih Rule.assignment r1 rest h
          omega
        · injection h with h
          subst h
          omega
    case printf =>
      simp only [run] at h
      rcases pbind_ok h with ⟨r1, h1, h⟩
      rcases pbind_ok h with ⟨r2, h2, h⟩
      rcases pbind_ok h with ⟨r3, h3, h⟩
      have l1 := check_and_eat_token_ok h1
      have l2 := check_and_eat_token_ok h2
      have l3 := ih Rule.assignment r2 r3 h3
      have l4 := check_and_eat_token_ok h
      omega
    case stat_assignment =>
      simp only [run] at h
      rcases pbind_ok h with ⟨r1, h1, h⟩
      rcases pbind_ok h with ⟨r2, h2, h⟩
      have l1 := check_and_eat_token_ok h1
      have l2 := check_and_eat_token_ok h2
      have l3 := ih Rule.assignment r2 rest h
      omega
    case assignment =>
      simp only [run] at h
      split at h
      · rcases pbind_ok h with ⟨r1, h1, h⟩
        rcases pbind_ok h with ⟨r2, h2, h⟩
        have l1 := check_and_eat_token_ok h1
        have l2 := check_and_eat_token_ok h2
        have l3 := ih Rule.assignment r2 rest h
        omega
      · exact ih Rule.expr ts rest h
    case expr =>
      simp only [run] at h
      rcases pbind_ok h with ⟨r1, h1, h⟩
      have l1 := ih Rule.simpexpr ts r1 h1
      split at h
      · have l2 := ih Rule.simpexpr (eat r1) rest h
        have l3 := eat_length_le r1
        omega
      · injection h with h
        subst h
        omega
    case simpexpr =>
      simp only [run] at h
      rcases pbind_ok h with ⟨r1, h1, h⟩
      have l1 := ih Rule.term _ r1 h1
      have l2 := ih Rule.simpexpr_ops r1 rest h
      have l3 : (if current_matches ts C1Token.Minus then eat ts else ts).length
          ≤ ts.length := by
        split
        · exact eat_length_le ts
        · exact Nat.le_refl _
      omega
    case simpexpr_ops =>
      simp only [run] at h
      split at h
      · rcases pbind_ok h with ⟨m, hm, hrest⟩
        have l1 := ih Rule.term (eat ts) m hm
        have l2 := ih Rule.simpexpr_ops m rest hrest
        have l3 := eat_length_le ts
        omega
      · injection h with h
        subst h
        exact Nat.le_refl _
    case term =>
      simp only [run] at h
      rcases pbind_ok h with ⟨r1, h1, h⟩
      have l1 := ih Rule.factor ts r1 h1
      have l2 := ih Rule.term_ops r1 rest h
      omega
    case term_ops =>
      simp only [run] at h
      split at h
      · rcases pbind_ok h with ⟨m, hm, hrest⟩
        have l1 := ih Rule.factor (eat ts) m hm
        have l2 := ih Rule.term_ops m rest hrest
        have l3 := eat_length_le ts
        omega
      · injection h with h
        subst h
        exact Nat.le_refl _
    case factor =>
      simp only [run] at h
      split at h
      · injection h with h
        subst h
        exact eat_length_le ts
      · split at h
        · exact le_of_lt (function_call_ok h)
        · split at h
          · injection h with h
            subst h
            exact eat_length_le ts
          · split at h
            · rcases pbind_ok h with ⟨m, hm, h2⟩
              have l1 := ih Rule.assignment (eat ts) m hm
              have l2 := check_and_eat_token_ok h2
              have l3 := eat_length_le ts
              omega
            · simp at h

theorem eat_length_eq (ts : List Tok) : (eat ts).length = ts.length - 1 := by
  simp [eat]

theorem run_function_definition_lt {f : Nat} {ts rest : List Tok}
    (h : run f Rule.function_definition ts = PRes.ok rest) :
    rest.length < ts.length := by
  cases f with
  | zero => simp [run] at h
  | succ f =>
    simp only [run] at h
    rcases pbind_ok h with ⟨r1, h1, h⟩
    rcases pbind_ok h with ⟨r2, h2, h⟩
    rcases pbind_ok h with ⟨r3, h3, h⟩
    rcases pbind_ok h with ⟨r4, h4, h⟩
    rcases pbind_ok h with ⟨r5, h5, h⟩
    rcases pbind_ok h with ⟨r6, h6, h⟩
    have l1 := return_type_ok h1
    have l2 := check_and_eat_token_ok h2
    have l6 := run_ok_length _ _ _ _ h6
    have l7 := check_and_eat_token_ok h
    have l3 := check_and_eat_token_ok h3
    have l4 := check_and_eat_token_ok h4
    have l5 := check_and_eat_token_ok h5
    omega

theorem run_if_statement_lt {f : Nat} {ts rest : List Tok}
    (h : run f Rule.if_statement ts = PRes.ok rest) :
    rest.length < ts.length := by
  cases f with
  | zero => simp [run] at h
  | succ f =>
    simp only [run] at h
    rcases pbind_ok h with ⟨r1, h1, h⟩
    rcases pbind_ok h with ⟨r2, h2, h⟩
    rcases pbind_ok h with ⟨r3, h3, h⟩
    rcases pbind_ok h with ⟨r4, h4, h⟩
    have l1 := check_and_eat_token_ok h1
    have l2 := check_and_eat_token_ok h2
    have l3 := run_ok_length _ _ _ _ h3
    have l4 := check_and_eat_token_ok h4
    have l5 := run_ok_length _ _ _ _ h
    omega

theorem run_statement_lt {f : Nat} {ts rest : List Tok}
    (h : run f Rule.statement ts = PRes.ok rest) :
    rest.length < ts.length := by
  cases f with
  | zero => simp [run] at h
  | succ f =>
    simp only [run] at h
    split at h
    · exact run_if_statement_lt h
    · split at h
      · rcases pbind_ok h with ⟨m, hm, h2⟩
        have l1 := run_ok_length _ _ _ _ hm
        have l2 := check_and_eat_token_ok h2
        omega
      · split at h
        · rcases pbind_ok h with ⟨m, hm, h2⟩
          have l1 := run_ok_length _ _ _ _ hm
          have l2 := check_and_eat_token_ok h2
          omega
        · split at h
          · rcases pbind_ok h with ⟨m, hm, h2⟩
            have l1 := run_ok_length _ _ _ _ hm
            have l2 := check_and_eat_token_ok h2
            omega
          · split at h
            · rcases pbind_ok h with ⟨m, hm, h2⟩
              have l1 := function_call_ok hm
              have l2 := check_and_eat_token_ok h2
              omega
            · simp at h

theorem run_block_lt {f : Nat} {ts rest : List Tok}
    (h : run f Rule.block ts = PRes.ok rest) :
    rest.length < ts.length := by
  cases f with
  | zero => simp [run] at h
  | succ f =>
    simp only [run] at h
    split at h
    · rename_i hb
      rcases pbind_ok h with ⟨m, hm, hrest⟩
      have l1 := run_ok_length _ _ _ _ hm
      have l2 := check_and_eat_token_ok hrest
      have l3 := eat_length_eq ts
      have l4 : 0 < ts.length := List.length_pos.mpr (current_matches_nonempty hb)
      omega
    · exact run_statement_lt h

/-- Call-depth rank of each rule: on any cycle of same-cursor delegations
the rank strictly drops, and any recursion back to a higher rank first
consumes at least one token. -/
def rank : Rule → Nat
  | Rule.factor => 1
  | Rule.term_ops => 2
  | Rule.term => 3
  | Rule.simpexpr_ops => 4
  | Rule.simpexpr => 5
  | Rule.expr => 6
  | Rule.assignment => 7
  | Rule.stat_assignment => 8
  | Rule.printf => 8
  | Rule.return_statement => 8
  | Rule.if_statement => 8
  | Rule.statement => 9
  | Rule.block => 10
  | Rule.statement_list => 11
  | Rule.function_definition => 12
  | Rule.program => 13

theorem run_ne_fail : ∀ (f : Nat) (r : Rule) (ts : List Tok),
    10 * ts.length + rank r < f → run f r ts ≠ PRes.fail := by
  intro f
  induction f with
  | zero =>
    intro r ts hb
    omega
  | succ f ih =>
    intro r ts hb
    cases r
    case program =>
      simp only [rank] at hb
      simp only [run]
      cases hc : current_token ts with
      | none => simp
      | some tk =>
        intro hcontra
        rcases pbind_fail hcontra with h' | ⟨m, hm, h'⟩
        · exact ih Rule.function_definition ts (by simp [rank]; omega) h'
        · have hlt := run_function_definition_lt hm
          exact ih Rule.program m (by simp [rank]; omega) h'
    case function_definition =>
      simp only [rank] at hb
      simp only [run]
      intro hcontra
      rcases pbind_fail hcontra with h' | ⟨r1, h1, h'⟩
      · exact return_type_ne_fail ts h'
      rcases pbind_fail h' with h'' | ⟨r2, h2, h''⟩
      · exact check_and_eat_token_ne_fail _ _ _ h''
      rcases pbind_fail h'' with h3 | ⟨r3, h3, h3'⟩
      · exact check_and_eat_token_ne_fail _ _ _ h3
      rcases pbind_fail h3' with h4 | ⟨r4, h4, h4'⟩
      · exact check_and_eat_token_ne_fail _ _ _ h4
      rcases pbind_fail h4' with h5 | ⟨r5, h5, h5'⟩
      · exact check_and_eat_token_ne_fail _ _ _ h5
      rcases pbind_fail h5' with h6 | ⟨r6, h6, h6'⟩
      · have l1 := return_type_ok h1
        have l2 := check_and_eat_token_ok h2
        have l3 := check_and_eat_token_ok h3
        have l4 := check_and_eat_token_ok h4
        have l5 := check_and_eat_token_ok h5
        exact ih Rule.statement_list r5 (by simp [rank]; omega) h6
      · exact check_and_eat_token_ne_fail _ _ _ h6'
    case statement_list =>
      simp only [rank] at hb
      simp only [run]
      split
      · rename_i hg
        intro hcontra
        rcases pbind_fail hcontra with h' | ⟨m, hm, h'⟩
        · exact ih Rule.block ts (by simp [rank]; omega) h'
        · have hlt := run_block_lt hm
          exact ih Rule.statement_list m (by simp [rank]; omega) h'
      · simp
    case block =>
      simp only [rank] at hb
      simp only [run]
      split
      · rename_i hg
        have hpos : 0 < ts.length := List.length_pos.mpr (current_matches_nonempty hg)
        have hlen := eat_length_eq ts
        intro hcontra
        rcases pbind_fail hcontra with h' | ⟨m, hm, h'⟩
        · exact ih Rule.statement_list (eat ts) (by simp [rank]; omega) h'
        · exact check_and_eat_token_ne_fail _ _ _ h'
      · exact ih Rule.statement ts (by simp [rank]; omega)
    case statement =>
      simp only [rank] at hb
      simp only [run]
      split
      · exact ih Rule.if_statement ts (by simp [rank]; omega)
      · split
        · intro hcontra
          rcases pbind_fail hcontra with h' | ⟨m, hm, h'⟩
          · exact ih Rule.return_statement ts (by simp [rank]; omega) h'
          · exact check_and_eat_token_ne_fail _ _ _ h'
        · split
          · intro hcontra
            rcases pbind_fail hcontra with h' | ⟨m, hm, h'⟩
            · exact ih Rule.printf ts (by simp [rank]; omega) h'
            · exact check_and_eat_token_ne_fail _ _ _ h'
          · split
            · intro hcontra
              rcases pbind_fail hcontra with h' | ⟨m, hm, h'⟩
              · exact ih Rule.stat_assignment ts (by simp [rank]; omega) h'
              · exact check_and_eat_token_ne_fail _ _ _ h'
            · split
              · intro hcontra
                rcases pbind_fail hcontra with h' | ⟨m, hm, h'⟩
                · exact function_call_ne_fail ts h'
                · exact check_and_eat_token_ne_fail _ _ _ h'
              · simp
    case if_statement =>
      simp only [rank] at hb
      simp only [run]
      intro hcontra
      rcases pbind_fail hcontra with h' | ⟨r1, h1, h'⟩
      · exact check_and_eat_token_ne_fail _ _ _ h'
      rcases pbind_fail h' with h'' | ⟨r2, h2, h''⟩
      · exact check_and_eat_token_ne_fail _ _ _ h''
      rcases pbind_fail h'' with h3 | ⟨r3, h3, h3'⟩
      · have l1 := check_and_eat_token_ok h1
        have l2 := check_and_eat_token_ok h2
        exact ih Rule.assignment r2 (by simp [rank]; omega) h3
      rcases pbind_fail h3' with h4 | ⟨r4, h4, h4'⟩
      · exact check_and_eat_token_ne_fail _ _ _ h4
      · have l1 := check_and_eat_token_ok h1
        have l2 := check_and_eat_token_ok h2
        have l3 := run_ok_length _ _ _ _ h3
        have l4 := check_and_eat_token_ok h4
        exact ih Rule.block r4 (by simp [rank]; omega) h4'
    case return_statement =>
      simp only [rank] at hb
      simp only [run]
      intro hcontra
      rcases pbind_fail hcontra with h' | ⟨r1, h1, h'⟩
      · exact check_and_eat_token_ne_fail _ _ _ h'
      have l1 := check_and_eat_token_ok h1
      cases hc : current_token r1 with
      | none => simp [hc] at h'
      | some tk =>
        simp only [hc] at h'
        split at h'
        · exact ih Rule.assignment r1 (by simp [rank]; omega) h'
        · simp at h'
    case printf =>
      simp only [rank] at hb
      simp only [run]
      intro hcontra
      rcases pbind_fail hcontra with h' | ⟨r1, h1, h'⟩
      · exact check_and_eat_token_ne_fail _ _ _ h'
      rcases pbind_fail h' with h'' | ⟨r2, h2, h''⟩
      · exact check_and_eat_token_ne_fail _ _ _ h''
      rcases pbind_fail h'' with h3 | ⟨r3, h3, h3'⟩
      · have l1 := check_and_eat_token_ok h1
        have l2 := check_and_eat_token_ok h2
        exact ih Rule.assignment r2 (by simp [rank]; omega) h3
      · exact check_and_eat_token_ne_fail _ _ _ h3'
    case stat_assignment =>
      simp only [rank] at hb
      simp only [run]
      intro hcontra
      rcases pbind_fail hcontra with h' | ⟨r1, h1, h'⟩
      · exact check_and_eat_token_ne_fail _ _ _ h'
      rcases pbind_fail h' with h'' | ⟨r2, h2, h''⟩
      · exact check_and_eat_token_ne_fail _ _ _ h''
      · have l1 := check_and_eat_token_ok h1
        have l2 := check_and_eat_token_ok h2
        exact ih Rule.assignment r2 (by simp [rank]; omega) h''
    case assignment =>
      simp only [rank] at hb
      simp only [run]
      split
      · intro hcontra
        rcases pbind_fail hcontra with h' | ⟨r1, h1, h'⟩
        · exact check_and_eat_token_ne_fail _ _ _ h'
        rcases pbind_fail h' with h'' | ⟨r2, h2, h''⟩
        · exact check_and_eat_token_ne_fail _ _ _ h''
        · have l1 := check_and_eat_token_ok h1
          have l2 := check_and_eat_token_ok h2
          exact ih Rule.assignment r2 (by simp [rank]; omega) h''
      · exact ih Rule.expr ts (by simp [rank]; omega)
    case expr =>
      simp only [rank] at hb
      simp only [run]
      intro hcontra
      rcases pbind_fail hcontra with h' | ⟨r1, h1, h'⟩
      · exact ih Rule.simpexpr ts (by simp [rank]; omega) h'
      have l1 := run_ok_length _ _ _ _ h1
      split at h'
      · have l2 := eat_length_eq r1
        exact ih Rule.simpexpr (eat r1) (by simp [rank]; omega) h'
      · simp at h'
    case simpexpr =>
      simp only [rank] at hb
      simp only [run]
      intro hcontra
      have harg : (if current_matches ts C1Token.Minus then eat ts else ts).length
          ≤ ts.length := by
        split
        · exact eat_length_le ts
        · exact Nat.le_refl _
      rcases pbind_fail hcontra with h' | ⟨r1, h1, h'⟩
      · exact ih Rule.term _ (by simp [rank]; omega) h'
      · have l1 := run_ok_length _ _ _ _ h1
        exact ih Rule.simpexpr_ops r1 (by simp [rank]; omega) h'
    case simpexpr_ops =>
      simp only [rank] at hb
      simp only [run]
      split
      · rename_i hg
        have hpos : 0 < ts.length := List.length_pos.mpr (any_match_current_nonempty hg)
        have hlen := eat_length_eq ts
        intro hcontra
        rcases pbind_fail hcontra with h' | ⟨m, hm, h'⟩
        · exact ih Rule.term (eat ts) (by simp [rank]; omega) h'
        · have l1 := run_ok_length _ _ _ _ hm
          exact ih Rule.simpexpr_ops m (by simp [rank]; omega) h'
      · simp
    case term =>
      simp only [rank] at hb
      simp only [run]
      intro hcontra
      rcases pbind_fail hcontra with h' | ⟨r1, h1, h'⟩
      · exact ih Rule.factor ts (by simp [rank]; omega) h'
      · have l1 := run_ok_length _ _ _ _ h1
        exact ih Rule.term_ops r1 (by simp [rank]; omega) h'
    case term_ops =>
      simp only [rank] at hb
      simp only [run]
      split
      · rename_i hg
        have hpos : 0 < ts.length := List.length_pos.mpr (any_match_current_nonempty hg)
        have hlen := eat_length_eq ts
        intro hcontra
        rcases pbind_fail hcontra with h' | ⟨m, hm, h'⟩
        · exact ih Rule.factor (eat ts) (by simp [rank]; omega) h'
        · have l1 := run_ok_length _ _ _ _ hm
          exact ih Rule.term_ops m (by simp [rank]; omega) h'
      · simp
    case factor =>
      simp only [rank] at hb
      simp only [run]
      split
      · simp
      · split
        · intro hcontra
          exact function_call_ne_fail ts hcontra
        · split
          · simp
          · split
            · rename_i hg
              have hpos : 0 < ts.length := List.length_pos.mpr (current_matches_nonempty hg)
              have hlen := eat_length_eq ts
              intro hcontra
              rcases pbind_fail hcontra with h' | ⟨m, hm, h'⟩
              · exact ih Rule.assignment (eat ts) (by simp [rank]; omega) h'
              · exact check_and_eat_token_ne_fail _ _ _ h'
            · simp

theorem pbind_congr {a : PRes} {k k' : List Tok → PRes}
    (hk : ∀ m, a = PRes.ok m → k' m = k m) : pbind a k' = pbind a k := by
  cases a with
  | ok m => simpa [pbind] using hk m rfl
  | err msg => rfl
  | fail => rfl

theorem pbind_ne_fail_left {a : PRes} {k : List Tok → PRes}
    (h : pbind a k ≠ PRes.fail) : a ≠ PRes.fail := by
  intro hf
  subst hf
  exact h rfl

theorem pbind_ne_fail_right {a : PRes} {k : List Tok → PRes} {m : List Tok}
    (h : pbind a k ≠ PRes.fail) (hm : a = PRes.ok m) : k m ≠ PRes.fail := by
  subst hm
  exact h

theorem run_mono : ∀ (f : Nat) (r : Rule) (ts : List Tok) (f' : Nat),
    run f r ts ≠ PRes.fail → f ≤ f' → run f' r ts = run f r ts := by
  intro f
  induction f with
  | zero =>
    intro r ts f' hnf _
    exact absurd rfl hnf
  | succ f ih =>
    intro r ts f' hnf hle
    cases f' with
    | zero => omega
    | succ f'' =>
    have hle' : f ≤ f'' := by omega
    cases r
    case program =>
      simp only [run] at hnf ⊢
      cases hc : current_token ts with
      | none => simp [hc]
      | some tk =>
        simp only [hc] at hnf ⊢
        cases hf : run f Rule.function_definition ts with
        | fail =>
          rw [hf] at hnf
          simp [pbind] at hnf
        | err m =>
          rw [ih Rule.function_definition ts f'' (by rw [hf]; simp) hle', hf]
          simp [pbind]
        | ok m =>
          rw [ih Rule.function_definition ts f'' (by rw [hf]; simp) hle', hf]
          simp only [pbind]
          rw [hf] at hnf
          simp only [pbind] at hnf
          exact ih Rule.program m f'' hnf hle'
    case function_definition =>
      simp only [run] at hnf ⊢
      apply pbind_congr
      intro r1 h1
      replace hnf := pbind_ne_fail_right hnf h1
      apply pbind_congr
      intro r2 h2
      replace hnf := pbind_ne_fail_right hnf h2
      apply pbind_congr
      intro r3 h3
      replace hnf := pbind_ne_fail_right hnf h3
      apply pbind_congr
      intro r4 h4
      replace hnf := pbind_ne_fail_right hnf h4
      apply pbind_congr
      intro r5 h5
      replace hnf := pbind_ne_fail_right hnf h5
      rw [ih Rule.statement_list r5 f'' (pbind_ne_fail_left hnf) hle']
    case statement_list =>
      simp only [run] at hnf ⊢
      split at hnf
      · rename_i hg
        simp only [if_pos hg]
        cases hf : run f Rule.block ts with
        | fail =>
          rw [hf] at hnf
          simp [pbind] at hnf
        | err m =>
          rw [ih Rule.block ts f'' (by rw [hf]; simp) hle', hf]
          simp [pbind]
        | ok m =>
          rw [ih Rule.block ts f'' (by rw [hf]; simp) hle', hf]
          simp only [pbind]
          rw [hf] at hnf
          simp only [pbind] at hnf
          exact ih Rule.statement_list m f'' hnf hle'
      · rename_i hg
        simp only [if_neg hg]
    case block =>
      simp only [run] at hnf ⊢
      split at hnf
      · rename_i hg
        simp only [if_pos hg]
        cases hf : run f Rule.statement_list (eat ts) with
        | fail =>
          rw [hf] at hnf
          simp [pbind] at hnf
        | err m =>
          rw [ih Rule.statement_list (eat ts) f'' (by rw [hf]; simp) hle', hf]
        | ok m =>
          rw [ih Rule.statement_list (eat ts) f'' (by rw [hf]; simp) hle', hf]
      · rename_i hg
        simp only [if_neg hg]
        exact ih Rule.statement ts f'' hnf hle'
    case statement =>
      simp only [run] at hnf ⊢
      split at hnf
      · rename_i hg
        simp only [if_pos hg]
        exact ih Rule.if_statement ts f'' hnf hle'
      · rename_i hg
        simp only [if_neg hg]
        split at hnf
        · rename_i hg2
          simp only [if_pos hg2]
          cases hf : run f Rule.return_statement ts with
          | fail =>
            rw [hf] at hnf
            simp [pbind] at hnf
          | err m =>
            rw [ih Rule.return_statement ts f'' (by rw [hf]; simp) hle', hf]
          | ok m =>
            rw [ih Rule.return_statement ts f'' (by rw [hf]; simp) hle', hf]
        · rename_i hg2
          simp only [if_neg hg2]
          split at hnf
          · rename_i hg3
            simp only [if_pos hg3]
            cases hf : run f Rule.printf ts with
            | fail =>
              rw [hf] at hnf
              simp [pbind] at hnf
            | err m =>
              rw [ih Rule.printf ts f'' (by rw [hf]; simp) hle', hf]
            | ok m =>
              rw [ih Rule.printf ts f'' (by rw [hf]; simp) hle', hf]
          · rename_i hg3
            simp only [if_neg hg3]
            split at hnf
            · rename_i hg4
              simp only [if_pos hg4]
              cases hf : run f Rule.stat_assignment ts with
              | fail =>
                rw [hf] at hnf
                simp [pbind] at hnf
              | err m =>
                rw [ih Rule.stat_assignment ts f'' (by rw [hf]; simp) hle', hf]
              | ok m =>
                rw [ih Rule.stat_assignment ts f'' (by rw [hf]; simp) hle', hf]
            · rename_i hg4
              simp only [if_neg hg4]
    case if_statement =>
      simp only [run] at hnf ⊢
      apply pbind_congr
      intro r1 h1
      replace hnf := pbind_ne_fail_right hnf h1
      apply pbind_congr
      intro r2 h2
      replace hnf := pbind_ne_fail_right hnf h2
      rw [ih Rule.assignment r2 f'' (pbind_ne_fail_left hnf) hle']
      apply pbind_congr
      intro r3 h3
      replace hnf := pbind_ne_fail_right hnf h3
      apply pbind_congr
      intro r4 h4
      replace hnf := pbind_ne_fail_right hnf h4
      exact ih Rule.block r4 f'' hnf hle'
    case return_statement =>
      simp only [run] at hnf ⊢
      apply pbind_congr
      intro r1 h1
      replace hnf := pbind_ne_fail_right hnf h1
      cases hc : current_token r1 with
      | none => simp [hc]
      | some tk =>
        simp only [hc] at hnf ⊢
        split at hnf
        · rename_i hg
          simp only [if_pos hg]
          exact ih Rule.assignment r1 f'' hnf hle'
        · rename_i hg
          simp only [if_neg hg]
    case printf =>
      simp only [run] at hnf ⊢
      apply pbind_congr
      intro r1 h1
      replace hnf := pbind_ne_fail_right hnf h1
      apply pbind_congr
      intro r2 h2
      replace hnf := pbind_ne_fail_right hnf h2
      rw [ih Rule.assignment r2 f'' (pbind_ne_fail_left hnf) hle']
    case stat_assignment =>
      simp only [run] at hnf ⊢
      apply pbind_congr
      intro r1 h1
      replace hnf := pbind_ne_fail_right hnf h1
      apply pbind_congr
      intro r2 h2
      replace hnf := pbind_ne_fail_right hnf h2
      exact ih Rule.assignment r2 f'' hnf hle'
    case assignment =>
      simp only [run] at hnf ⊢
      split at hnf
      · rename_i hg
        simp only [if_pos hg]
        apply pbind_congr
        intro r1 h1
        replace hnf := pbind_ne_fail_right hnf h1
        apply pbind_congr
        intro r2 h2
        replace hnf := pbind_ne_fail_right hnf h2
        exact ih Rule.assignment r2 f'' hnf hle'
      · rename_i hg
        simp only [if_neg hg]
        exact ih Rule.expr ts f'' hnf hle'
    case expr =>
      simp only [run] at hnf ⊢
      cases hf : run f Rule.simpexpr ts with
      | fail =>
        rw [hf] at hnf
        simp [pbind] at hnf
      | err m =>
        rw [ih Rule.simpexpr ts f'' (by rw [hf]; simp) hle', hf]
        simp [pbind]
      | ok r1 =>
        rw [ih Rule.simpexpr ts f'' (by rw [hf]; simp) hle', hf]
        simp only [pbind]
        rw [hf] at hnf
        simp only [pbind] at hnf
        split at hnf
        · rename_i hg
          simp only [if_pos hg]
          exact ih Rule.simpexpr (eat r1) f'' hnf hle'
        · rename_i hg
          simp only [if_neg hg]
    case simpexpr =>
      simp only [run] at hnf ⊢
      cases hf : run f Rule.term
          (if current_matches ts C1Token.Minus then eat ts else ts) with
      | fail =>
        rw [hf] at hnf
        simp [pbind] at hnf
      | err m =>
        rw [ih Rule.term _ f'' (by rw [hf]; simp) hle', hf]
        simp [pbind]
      | ok r1 =>
        rw [ih Rule.term _ f'' (by rw [hf]; simp) hle', hf]
        simp only [pbind]
        rw [hf] at hnf
        simp only [pbind] at hnf
        exact ih Rule.simpexpr_ops r1 f'' hnf hle'
    case simpexpr_ops =>
      simp only [run] at hnf ⊢
      split at hnf
      · rename_i hg
        simp only [if_pos hg]
        cases hf : run f Rule.term (eat ts) with
        | fail =>
          rw [hf] at hnf
          simp [pbind] at hnf
        | err m =>
          rw [ih Rule.term (eat ts) f'' (by rw [hf]; simp) hle', hf]
          simp [pbind]
        | ok m =>
          rw [ih Rule.term (eat ts) f'' (by rw [hf]; simp) hle', hf]
          simp only [pbind]
          rw [hf] at hnf
          simp only [pbind] at hnf
          exact ih Rule.simpexpr_ops m f'' hnf hle'
      · rename_i hg
        simp only [if_neg hg]
    case term =>
      simp only [run] at hnf ⊢
      cases hf : run f Rule.factor ts with
      | fail =>
        rw [hf] at hnf
        simp [pbind] at hnf
      | err m =>
        rw [ih Rule.factor ts f'' (by rw [hf]; simp) hle', hf]
        simp [pbind]
      | ok r1 =>
        rw [ih Rule.factor ts f'' (by rw [hf]; simp) hle', hf]
        simp only [pbind]
        rw [hf] at hnf
        simp only [pbind] at hnf
        exact ih Rule.term_ops r1 f'' hnf hle'
    case term_ops =>
      simp only [run] at hnf ⊢
      split at hnf
      · rename_i hg
        simp only [if_pos hg]
        cases hf : run f Rule.factor (eat ts) with
        | fail =>
          rw [hf] at hnf
          simp [pbind] at hnf
        | err m =>
          rw [ih Rule.factor (eat ts) f'' (by rw [hf]; simp) hle', hf]
          simp [pbind]
        | ok m =>
          rw [ih Rule.factor (eat ts) f'' (by rw [hf]; simp) hle', hf]
          simp only [pbind]
          rw [hf] at hnf
          simp only [pbind] at hnf
          exact ih Rule.term_ops m f'' hnf hle'
      · rename_i hg
        simp only [if_neg hg]
    case factor =>
      simp only [run] at hnf ⊢
      split at hnf
      · rename_i hg
        simp only [if_pos hg]
      · rename_i hg
        simp only [if_neg hg]
        split at hnf
        · rename_i hg2
          simp only [if_pos hg2]
        · rename_i hg2
          simp only [if_neg hg2]
          split at hnf
          · rename_i hg3
            simp only [if_pos hg3]
          · rename_i hg3
            simp only [if_neg hg3]
            split at hnf
            · rename_i hg4
              simp only [if_pos hg4]
              cases hf : run f Rule.assignment (eat ts) with
              | fail =>
                rw [hf] at hnf
                simp [pbind] at hnf
              | err m =>
                rw [ih Rule.assignment (eat ts) f'' (by rw [hf]; simp) hle', hf]
              | ok m =>
                rw [ih Rule.assignment (eat ts) f'' (by rw [hf]; simp) hle', hf]
            · rename_i hg4
              simp only [if_neg hg4]

theorem current_matchesS_eq (ts : List Tok) (token : C1Token) :
    current_matchesS ts token = (current_matches ts token, ts) := rfl

theorem next_matchesS_eq (ts : List Tok) (token : C1Token) :
    next_matchesS ts token = (next_matches ts token, ts) := rfl

theorem any_match_currentS_eq : ∀ (l : List C1Token) (ts : List Tok),
    any_match_currentS ts l = (any_match_current ts l, ts) := by
  intro l
  induction l with
  | nil =>
    intro ts
    simp [any_match_currentS, any_match_current]
  | cons t rest ih =>
    intro ts
    cases hb : current_matches ts t with
    | true =>
      simp [any_match_currentS, any_match_current, current_matchesS_eq, hb]
    | false =>
      simp [any_match_currentS, any_match_current, current_matchesS_eq, hb, ih ts]

theorem next_can_be_function_callS_eq (ts : List Tok) :
    next_can_be_function_callS ts = (next_can_be_function_call ts, ts) := by
  cases h : current_matches ts C1Token.Identifier <;>
    simp [next_can_be_function_callS, next_can_be_function_call,
      current_matchesS_eq, next_matchesS_eq, h]

theorem next_can_be_statementS_eq (ts : List Tok) :
    next_can_be_statementS ts = (next_can_be_statement ts, ts) := by
  cases h1 : current_matches ts C1Token.KwIf <;>
  cases h2 : current_matches ts C1Token.KwReturn <;>
  cases h3 : current_matches ts C1Token.KwPrintf <;>
  cases h4 : current_matches ts C1Token.Identifier <;>
  cases h5 : next_matches ts C1Token.Assign <;>
  cases h6 : next_matches ts C1Token.LeftParenthesis <;>
    simp [next_can_be_statementS, next_can_be_statement,
      current_matchesS_eq, next_matchesS_eq, h1, h2, h3, h4, h5, h6]

theorem next_can_be_blockS_eq (ts : List Tok) :
    next_can_be_blockS ts = (next_can_be_block ts, ts) := by
  cases h : current_matches ts C1Token.LeftBrace <;>
    simp [next_can_be_blockS, next_can_be_block, current_matchesS_eq,
      next_can_be_statementS_eq, h]

theorem error_message_currentS_eq (ts : List Tok) (reason : String) :
    error_message_currentS ts reason = (error_message_current ts reason, ts) := by
  cases ts <;> rfl

/-- C1 counterexample: on the trailing lone type keyword `bool`, the
top-level parse rejects, but the diagnostic is "Expected function name.
Reached EOF" — produced inside the attempted next function definition —
and is not a message built by the Diagnostic Builder from the reason
"Expected EOF" in any reachable builder state. -/
theorem c1_counterexample :
    parse lone_bool_token = PRes.err "Expected function name. Reached EOF" ∧
    error_message_current lone_bool_token "Expected EOF"
      ≠ "Expected function name. Reached EOF" ∧
    error_message_current [] "Expected EOF"
      ≠ "Expected function name. Reached EOF" := by
  refine ⟨by decide, by decide, by decide⟩

/-- C1 (amended): whenever any token remains, `program` attempts another
function definition and propagates that attempt's diagnostic unchanged
(the "Expected EOF" branch is only reachable at end of input, where the
loop instead accepts); in particular a trailing lone `bool` rejects with
"Expected function name. Reached EOF". -/
theorem c1_trailing_tokens (f : Nat) (ts : List Tok) (h : ts ≠ []) :
    run (f+1) Rule.program ts =
      pbind (run f Rule.function_definition ts)
        (fun rest => run f Rule.program rest) ∧
    parse lone_bool_token = PRes.err "Expected function name. Reached EOF" := by
  constructor
  · cases ts with
    | nil => exact absurd rfl h
    | cons t tl => rfl
  · decide

theorem c1_trailing_tokens_witness :
    run 24 Rule.program lone_bool_token =
      pbind (run 23 Rule.function_definition lone_bool_token)
        (fun rest => run 23 Rule.program rest) :=
  (c1_trailing_tokens 23 lone_bool_token (by decide)).1

/-- C2 counterexample: on the token sequence of `int x = 0;`, the parse
rejects with "Expected '(' at line 1, got '=' instead." — a message that
is not the type-keyword diagnostic at that state, and that mentions
neither "type keyword" nor "EOF". -/
theorem c2_counterexample :
    parse tokens_int_x_eq_0
      = PRes.err "Expected '(' at line 1, got '=' instead." ∧
    "Expected '(' at line 1, got '=' instead."
      ≠ error_message_current tokens_int_x_eq_0 "Expected type keyword" ∧
    containsSeq ("type keyword".toList)
      ("Expected '(' at line 1, got '=' instead.".toList) = false ∧
    containsSeq ("EOF".toList)
      ("Expected '(' at line 1, got '=' instead.".toList) = false := by
  refine ⟨by decide, by decide, by decide, by decide⟩

/-- C2 (amended): for the input `int x = 0;` the top-level parse rejects;
`int` is consumed as the return type and `x` as the function name, so the
diagnostic cites the expected `(` against the actual `=`, and it names
line 1. -/
theorem c2_reject_missing_paren :
    parse tokens_int_x_eq_0
      = PRes.err "Expected '(' at line 1, got '=' instead." ∧
    containsSeq ("line 1".toList)
      ("Expected '(' at line 1, got '=' instead.".toList) = true := by
  refine ⟨by decide, by decide⟩

/-- C3: the `statement` rule dispatches in priority order on
non-consuming lookahead: `if` → if-statement; `return` → return-statement
then `;`; `printf` → printf then `;`; identifier followed by `=` →
assignment statement then `;`; identifier followed by `(` → function-call
statement then `;`; and in every other state it returns the rejection
built from "Expected statement" (consuming nothing — the result carries
no advanced stream). -/
theorem c3_statement_dispatch (f : Nat) (ts : List Tok) :
    (current_matches ts C1Token.KwIf = true →
      run (f+1) Rule.statement ts = run f Rule.if_statement ts) ∧
    (current_matches ts C1Token.KwIf = false →
      current_matches ts C1Token.KwReturn = true →
      run (f+1) Rule.statement ts =
        pbind (run f Rule.return_statement ts) (fun r =>
          check_and_eat_token r C1Token.Semicolon
            "Expected ';' after return statement")) ∧
    (current_matches ts C1Token.KwIf = false →
      current_matches ts C1Token.KwReturn = false →
      current_matches ts C1Token.KwPrintf = true →
      run (f+1) Rule.statement ts =
        pbind (run f Rule.printf ts) (fun r =>
          check_and_eat_token r C1Token.Semicolon
            "Expected ';' after printf statement")) ∧
    (current_matches ts C1Token.KwIf = false →
      current_matches ts C1Token.KwReturn = false →
      current_matches ts C1Token.KwPrintf = false →
      (current_matches ts C1Token.Identifier
        && next_matches ts C1Token.Assign) = true →
      run (f+1) Rule.statement ts =
        pbind (run f Rule.stat_assignment ts) (fun r =>
          check_and_eat_token r C1Token.Semicolon
            "Expected ';' after assignment")) ∧
    (current_matches ts C1Token.KwIf = false →
      current_matches ts C1Token.KwReturn = false →
      current_matches ts C1Token.KwPrintf = false →
      (current_matches ts C1Token.Identifier
        && next_matches ts C1Token.Assign) = false →
      (current_matches ts C1Token.Identifier
        && next_matches ts C1Token.LeftParenthesis) = true →
      run (f+1) Rule.statement ts =
        pbind (function_call ts) (fun r =>
          check_and_eat_token r C1Token.Semicolon
            "Expected ';' after function call")) ∧
    (current_matches ts C1Token.KwIf = false →
      current_matches ts C1Token.KwReturn = false →
      current_matches ts C1Token.KwPrintf = false →
      (current_matches ts C1Token.Identifier
        && next_matches ts C1Token.Assign) = false →
      (current_matches ts C1Token.Identifier
        && next_matches ts C1Token.LeftParenthesis) = false →
      run (f+1) Rule.statement ts
        = PRes.err (error_message_current ts "Expected statement")) := by
  refine ⟨?_, ?_, ?_, ?_, ?_, ?_⟩
  · intro h1
    simp [run, h1]
  · intro h1 h2
    simp [run, h1, h2]
  · intro h1 h2 h3
    simp [run, h1, h2, h3]
  · intro h1 h2 h3 h4
    simp [run, h1, h2, h3, h4]
  · intro h1 h2 h3 h4 h5
    simp [run, h1, h2, h3, h4, h5]
  · intro h1 h2 h3 h4 h5
    simp [run, h1, h2, h3, h4, h5]

theorem c3_statement_dispatch_witness :
    run 1 Rule.statement [⟨C1Token.KwIf, 1, "if"⟩]
      = run 0 Rule.if_statement [⟨C1Token.KwIf, 1, "if"⟩] ∧
    run 1 Rule.statement []
      = PRes.err (error_message_current [] "Expected statement") :=
  ⟨(c3_statement_dispatch 0 [⟨C1Token.KwIf, 1, "if"⟩]).1 (by decide),
   (c3_statement_dispatch 0 []).2.2.2.2.2
     (by decide) (by decide) (by decide) (by decide) (by decide)⟩

/-- C4: the Diagnostic Builder yields exactly "{reason}. Reached EOF"
with no current token and exactly "{reason} at line {N}, got '{text}'
instead." with one, where N and text come from the current token; and its
state-passing rendering returns the stream unchanged (no consumption). -/
theorem c4_diagnostic_builder :
    (∀ reason : String,
      error_message_current [] reason = reason ++ ". Reached EOF") ∧
    (∀ (reason : String) (t : Tok) (rest : List Tok),
      error_message_current (t :: rest) reason =
        reason ++ " at line " ++ toString t.line
          ++ ", got '" ++ t.text ++ "' instead.") ∧
    (∀ (reason : String) (ts : List Tok),
      error_message_currentS ts reason = (error_message_current ts reason, ts)) :=
  ⟨fun _ => rfl, fun _ _ _ => rfl, fun reason ts => error_message_currentS_eq ts reason⟩

/-- C5: inside a statement list, `x = 1;` is accepted with the
assignment-statement guard selected, `x();` is accepted with the
function-call guard selected, and `x ( ;` is rejected citing the
missing `)`. -/
theorem c5_two_token_lookahead :
    run (fuelBound tokens_x_assign_1) Rule.statement_list tokens_x_assign_1
      = PRes.ok [] ∧
    (current_matches tokens_x_assign_1 C1Token.Identifier
      && next_matches tokens_x_assign_1 C1Token.Assign) = true ∧
    current_matches tokens_x_assign_1 C1Token.KwIf = false ∧
    current_matches tokens_x_assign_1 C1Token.KwReturn = false ∧
    current_matches tokens_x_assign_1 C1Token.KwPrintf = false ∧
    run (fuelBound tokens_x_call) Rule.statement_list tokens_x_call
      = PRes.ok [] ∧
    (current_matches tokens_x_call C1Token.Identifier
      && next_matches tokens_x_call C1Token.LeftParenthesis) = true ∧
    next_matches tokens_x_call C1Token.Assign = false ∧
    run (fuelBound tokens_x_call_bad) Rule.statement_list tokens_x_call_bad
      = PRes.err "Expected ')' at line 1, got ';' instead." := by
  refine ⟨by decide, by decide, by decide, by decide, by decide,
    by decide, by decide, by decide, by decide⟩

/-- C6: every Lookahead Oracle predicate, rendered with the stream state
threaded through its reads, returns the stream cursor unchanged, computes
the same boolean as the engine's predicate, and yields the same answer on
re-evaluation before any token is consumed. -/
theorem c6_oracle_pure (ts : List Tok) (token : C1Token) (l : List C1Token) :
    current_matchesS ts token = (current_matches ts token, ts) ∧
    next_matchesS ts token = (next_matches ts token, ts) ∧
    any_match_currentS ts l = (any_match_current ts l, ts) ∧
    next_can_be_function_callS ts = (next_can_be_function_call ts, ts) ∧
    next_can_be_statementS ts = (next_can_be_statement ts, ts) ∧
    next_can_be_blockS ts = (next_can_be_block ts, ts) ∧
    (current_matchesS (current_matchesS ts token).2 token).1
      = (current_matchesS ts token).1 ∧
    (next_matchesS (next_matchesS ts token).2 token).1
      = (next_matchesS ts token).1 ∧
    (any_match_currentS (any_match_currentS ts l).2 l).1
      = (any_match_currentS ts l).1 ∧
    (next_can_be_function_callS (next_can_be_function_callS ts).2).1
      = (next_can_be_function_callS ts).1 ∧
    (next_can_be_statementS (next_can_be_statementS ts).2).1
      = (next_can_be_statementS ts).1 ∧
    (next_can_be_blockS (next_can_be_blockS ts).2).1
      = (next_can_be_blockS ts).1 := by
  refine ⟨rfl, rfl, any_match_currentS_eq l ts, next_can_be_function_callS_eq ts,
    next_can_be_statementS_eq ts, next_can_be_blockS_eq ts, rfl, rfl, ?_, ?_, ?_, ?_⟩
  · simp [any_match_currentS_eq]
  · simp [next_can_be_function_callS_eq]
  · simp [next_can_be_statementS_eq]
  · simp [next_can_be_blockS_eq]

/-- C7: the top-level parse always terminates with a verdict — on every
finite token sequence it returns success or a rejection (the fuel budget
`fuelBound` is never exhausted, because every cycle of rules either drops
in `rank` or first consumes a token). -/
theorem c7_parse_terminates (ts : List Tok) :
    (∃ rest, parse ts = PRes.ok rest) ∨ (∃ msg, parse ts = PRes.err msg) := by
  have h := run_ne_fail (fuelBound ts) Rule.program ts
    (by simp [fuelBound, rank])
  cases hp : parse ts with
  | ok rest => exact Or.inl ⟨rest, rfl⟩
  | err msg => exact Or.inr ⟨msg, rfl⟩
  | fail => exact absurd hp h

/-- C8: repeated invocations of the top-level entry point on the same
token sequence yield the same verdict and message: each call builds a
fresh parser, and the result does not depend on the embedding's fuel
once it is at least `fuelBound`. -/
theorem c8_parse_idempotent (ts : List Tok) :
    parse ts = parse ts ∧
    ∀ f, fuelBound ts ≤ f → run f Rule.program ts = parse ts := by
  refine ⟨rfl, ?_⟩
  intro f hf
  have hnf := run_ne_fail (fuelBound ts) Rule.program ts
    (by simp [fuelBound, rank])
  exact run_mono (fuelBound ts) Rule.program ts f hnf hf

theorem c8_parse_idempotent_witness :
    run 20 Rule.program [] = parse [] :=
  (c8_parse_idempotent []).2 20 (by decide)

/-- C9: with the `return` keyword current, the return-statement rule
accepts a bare `return` at end of input and before a semicolon, in both
cases consuming only the `return` keyword (the semicolon stays for the
caller), and it invokes the expression rule exactly when a non-semicolon
token follows. -/
theorem c9_return_statement (f : Nat) (t : Tok) (rest : List Tok)
    (hk : t.kind = C1Token.KwReturn) :
    (rest = [] →
      run (f+1) Rule.return_statement (t :: rest) = PRes.ok []) ∧
    (∀ (s : Tok) (rest2 : List Tok), rest = s :: rest2 →
      s.kind = C1Token.Semicolon →
      run (f+1) Rule.return_statement (t :: rest) = PRes.ok rest) ∧
    (∀ (s : Tok) (rest2 : List Tok), rest = s :: rest2 →
      s.kind ≠ C1Token.Semicolon →
      run (f+1) Rule.return_statement (t :: rest) = run f Rule.assignment rest) := by
  have hc : check_and_eat_token (t :: rest) C1Token.KwReturn
      "Expected 'return' keyword" = PRes.ok rest := by
    simp [check_and_eat_token, current_matches, current_token, hk, eat]
  refine ⟨?_, ?_, ?_⟩
  · rintro rfl
    simp only [run]
    rw [hc]
    simp [pbind, current_token]
  · rintro s rest2 rfl hs
    simp only [run]
    rw [hc]
    simp [pbind, current_token, current_matches, hs]
  · rintro s rest2 rfl hs
    simp only [run]
    rw [hc]
    simp [pbind, current_token, current_matches, hs]

theorem c9_return_statement_witness :
    run 1 Rule.return_statement [⟨C1Token.KwReturn, 1, "return"⟩]
      = PRes.ok [] :=
  (c9_return_statement 0 ⟨C1Token.KwReturn, 1, "return"⟩ [] rfl).1 rfl

/-- C10: whenever a current token exists, the line-number and text
accessors also return a value, and the Diagnostic Builder resolves its
two unwraps to that token's fields, so diagnostic construction is total
at every call site. -/
theorem c10_accessor_totality (ts : List Tok)
    (h : (current_token ts).isSome = true) :
    (current_line_number ts).isSome = true ∧
    (current_text ts).isSome = true ∧
    ∀ reason : String, error_message_current ts reason =
      reason ++ " at line " ++ toString (current_line_number ts).get!
        ++ ", got '" ++ (current_text ts).get! ++ "' instead." := by
  cases ts with
  | nil => simp [current_token] at h
  | cons t tl =>
    refine ⟨rfl, rfl, fun reason => rfl⟩

theorem c10_accessor_totality_witness :
    (current_line_number [⟨C1Token.KwVoid, 1, "void"⟩]).isSome = true ∧
    (current_text [⟨C1Token.KwVoid, 1, "void"⟩]).isSome = true :=
  ⟨(c10_accessor_totality [⟨C1Token.KwVoid, 1, "void"⟩] (by decide)).1,
   (c10_accessor_totality [⟨C1Token.KwVoid, 1, "void"⟩] (by decide)).2.1⟩
